import Mathlib

/-!
Verification development for the winmsg-executor repository: a single-threaded
async executor driven by the Win32 per-thread message queue.

The first part embeds the executor of src/lib.rs (functions block_on,
spawn_local, MessageLoop::run, MessageLoop::run_loop, MessageLoop::quit,
poll_ready, and the EXECUTOR_WINDOW wake dispatch) as a fueled state machine.
Futures are deep-embedded: a future can finish, park forever, wake itself and
yield, call PostQuitMessage, or synchronously re-enter block_on.
-/

namespace Winmsg

/-- Deep embedding of the futures the executor can drive.  A future either is
ready with a value, parks forever (pending with no wake scheduled), wakes its
own waker and yields once, calls the PostQuitMessage winapi function and
continues, or synchronously calls the nested block_on of src/lib.rs and
continues with the returned value. -/
inductive Fut where
  | ready (v : Nat)
  | pending
  | yieldThen (rest : Fut)
  | postQuitThen (rest : Fut)
  | blockOnThen (inner : Fut) (k : Nat → Fut)

/-- Mathematical value of a future, ignoring scheduling: the value it returns
when driven to completion. -/
def denote : Fut → Nat
  | .ready v => v
  | .pending => 0
  | .yieldThen rest => denote rest
  | .postQuitThen rest => denote rest
  | .blockOnThen inner k => denote (k (denote inner))

/-- Work measure of a future: bounds the number of scheduler interactions
needed to drive it to completion.  Used as the induction measure. -/
def mu : Fut → Nat
  | .ready _ => 1
  | .pending => 1
  | .yieldThen rest => mu rest + 1
  | .postQuitThen rest => mu rest + 1
  | .blockOnThen inner k => mu inner + mu (k (denote inner)) + 1

/-- Futures that complete on their own: no parking forever and no
PostQuitMessage.  The continuation of a nested block_on must stay completing
for every possible inner value. -/
inductive Completing : Fut → Prop where
  | ready (v : Nat) : Completing (.ready v)
  | yieldThen {rest : Fut} : Completing rest → Completing (.yieldThen rest)
  | blockOnThen {inner : Fut} {k : Nat → Fut} :
      Completing inner → (∀ v, Completing (k v)) → Completing (.blockOnThen inner k)

/-- A Win32 MSG as far as the executor looks at it: target window handle,
numeric message id, and the lparam payload word. -/
structure Msg where
  hwnd : Nat
  message : Nat
  lparam : Nat
  deriving DecidableEq

/-- The reserved wake id of src/lib.rs: MSG_ID_WAKE = WM_USER. -/
def MSG_ID_WAKE : Nat := 1024

/-- Model handle of the thread-local EXECUTOR_WINDOW of src/lib.rs (a
message-only window; any nonzero value distinct from user windows). -/
def EXECUTOR_HWND : Nat := 1

/-- Wake message posted by the schedule closure of spawn_unchecked_lifetime:
PostMessageA(executor_hwnd, MSG_ID_WAKE, 0, runnable_ptr).  The lparam carries
the task identity. -/
def mkWake (tid : Nat) : Msg := ⟨EXECUTOR_HWND, MSG_ID_WAKE, tid⟩

/-- One async_task task owned by the executor: the future (none once the task
has completed), the stored output awaiting the join handle (none if not yet
completed, or dropped), whether the join handle was dropped (detached), and
the quit flag of the block_on loop to set on completion (none for plain
spawn_local tasks). -/
structure TaskRec where
  fut : Option Fut
  done : Option Nat
  detached : Bool
  quitLoop : Option Nat

/-- Association list lookup by numeric key (task ids, loop ids). -/
def lookupA {β : Type} : List (Nat × β) → Nat → Option β
  | [], _ => none
  | (i, b) :: rest, id => if i = id then some b else lookupA rest id

/-- Association list update by numeric key; absent keys are left absent. -/
def setA {β : Type} : List (Nat × β) → Nat → β → List (Nat × β)
  | [], _, _ => []
  | (i, b) :: rest, id, b' => if i = id then (i, b') :: rest else (i, b) :: setA rest id b'

/-- Per-thread executor state: the message queue (FIFO), the task store, the
fresh-task counter, the quit flags of the live MessageLoop instances (one per
block_on / MessageLoop::run), the fresh-loop counter, whether PostQuitMessage
was called (WM_QUIT pending), whether a WH_MSGFILTER hook is registered, and
the log of messages handed to TranslateMessage/DispatchMessageA for windows
other than the executor window. -/
structure ExecState where
  queue : List Msg
  tasks : List (Nat × TaskRec)
  nextId : Nat
  loops : List (Nat × Bool)
  nextLoop : Nat
  quitPosted : Bool
  hookRegistered : Bool
  forwarded : List Msg

/-- The state of a fresh thread. -/
def initState : ExecState :=
  { queue := [], tasks := [], nextId := 0, loops := [], nextLoop := 0,
    quitPosted := false, hookRegistered := false, forwarded := [] }

/-- Reading the Cell of MessageLoop::quit for loop L. -/
def getLoop (s : ExecState) (L : Nat) : Bool := (lookupA s.loops L).getD false

/-- Outcome of one poll of a deep-embedded future. -/
inductive POut where
  | readyP (v : Nat)
  | pendWake (rest : Fut)
  | parked

/-- Result of a fueled run: a value, a Rust panic, a blocking GetMessageA call
that no one will ever satisfy, or exhausted fuel. -/
inductive Res (α : Type) where
  | ok (a : α)
  | panicked
  | blocked
  | outOfFuel
  deriving DecidableEq

/-- Return value of the filter closure of MessageLoop::run (src/lib.rs). -/
inductive FilterResult where
  | forward
  | drop
  deriving DecidableEq

/-- A (stateless) filter closure: besides the FilterResult it may call
MessageLoop::quit on the loop that invoked it (the Bool component). -/
def FilterFn : Type := Msg → FilterResult × Bool

/-- The filter block_on passes to run_loop in src/lib.rs, which forwards every
message and never quits. -/
def constForward : FilterFn := fun _ => (.forward, false)

/-- The body of spawn_unchecked_lifetime in src/lib.rs: allocate the task and
perform the initial schedule, i.e. post one wake message carrying the task. -/
def spawnTask (s : ExecState) (f : Fut) (quitLoop : Option Nat) : Nat × ExecState :=
  let tid := s.nextId
  (tid,
    { s with
      nextId := tid + 1,
      tasks := s.tasks ++ [(tid, ⟨some f, none, false, quitLoop⟩)],
      queue := s.queue ++ [mkWake tid] })

/-- The five mutually recursive operations of the executor, tied through one
fuel level.  Fuel only bounds recursion depth; outOfFuel never occurs in the
runs the theorems talk about. -/
structure Engine where
  pollFutF : ExecState → Fut → Res (ExecState × POut)
  runTaskF : ExecState → Nat → Res ExecState
  dispatchF : ExecState → Msg → Res ExecState
  runLoopF : Nat → FilterFn → ExecState → Res ExecState
  blockOnF : ExecState → Fut → Res (ExecState × Nat)

/-- One poll of a future on the owning thread (the runnable.run() of
async_task driving our deep-embedded futures).  A nested block_on runs
synchronously inside the poll, exactly as in src/lib.rs. -/
def pollFutStep (prev : Engine) (s : ExecState) : Fut → Res (ExecState × POut)
  | .ready v => .ok (s, .readyP v)
  | .pending => .ok (s, .parked)
  | .yieldThen rest => .ok (s, .pendWake rest)
  | .postQuitThen rest => prev.pollFutF { s with quitPosted := true } rest
  | .blockOnThen inner k =>
    match prev.blockOnF s inner with
    | .ok (s', v) => prev.pollFutF s' (k v)
    | .panicked => .panicked
    | .blocked => .blocked
    | .outOfFuel => .outOfFuel

/-- Consuming one wake message for task tid: poll the task's future once.  On
ready the output is stored (or dropped when detached, as async_task does) and
the block_on wrapper sets its loop's quit flag, as the wrapped future of
block_on does in src/lib.rs.  On a self-wake the task reposts its wake
message.  A wake for a completed task is a no-op (async_task never hands out
a runnable for a completed task). -/
def runTaskStep (prev : Engine) (s : ExecState) (tid : Nat) : Res ExecState :=
  match lookupA s.tasks tid with
  | none => .ok s
  | some tr =>
    match tr.fut with
    | none => .ok s
    | some f =>
      match prev.pollFutF s f with
      | .ok (s', .readyP v) =>
        let tr' := { tr with fut := none, done := if tr.detached then none else some v }
        let s'' := { s' with tasks := setA s'.tasks tid tr' }
        .ok (match tr.quitLoop with
             | some L => { s'' with loops := setA s''.loops L true }
             | none => s'')
      | .ok (s', .pendWake rest) =>
        .ok { s' with
              tasks := setA s'.tasks tid { tr with fut := some rest },
              queue := s'.queue ++ [mkWake tid] }
      | .ok (s', .parked) =>
        .ok { s' with tasks := setA s'.tasks tid { tr with fut := some .pending } }
      | .panicked => .panicked
      | .blocked => .blocked
      | .outOfFuel => .outOfFuel

/-- TranslateMessage/DispatchMessageA: a message targeted at the executor
window with the reserved id runs the carried runnable (the EXECUTOR_WINDOW
wndproc closure of src/lib.rs); everything else goes to the target window's
own procedure, modelled as an append to the forwarded log. -/
def dispatchStep (prev : Engine) (s : ExecState) (m : Msg) : Res ExecState :=
  if m.hwnd = EXECUTOR_HWND ∧ m.message = MSG_ID_WAKE then
    prev.runTaskF s m.lparam
  else
    .ok { s with forwarded := s.forwarded ++ [m] }

/-- MessageLoop::run_loop of src/lib.rs: while the quit Cell is unset,
GetMessageA (returns 0 and ends the loop when WM_QUIT is retrieved, which
happens when the queue is otherwise idle), then the filter, then forward to
translate+dispatch unless the filter dropped the message. -/
def runLoopStep (prev : Engine) (L : Nat) (flt : FilterFn) (s : ExecState) : Res ExecState :=
  if getLoop s L then .ok s
  else
    match s.queue with
    | [] => if s.quitPosted then .ok { s with quitPosted := false } else .blocked
    | m :: rest =>
      let s1 := { s with queue := rest }
      let fr := flt m
      let s2 := if fr.2 then { s1 with loops := setA s1.loops L true } else s1
      match fr.1 with
      | .drop => prev.runLoopF L flt s2
      | .forward =>
        match prev.dispatchF s2 m with
        | .ok s3 => prev.runLoopF L flt s3
        | .panicked => .panicked
        | .blocked => .blocked
        | .outOfFuel => .outOfFuel

/-- block_on of src/lib.rs: create a fresh MessageLoop, spawn the future
wrapped so that completion quits that loop, run the loop with a
forward-everything filter, then poll_ready: extract the stored output, or
panic with "received unexpected quit message" when the loop exited via a quit
request before the future completed. -/
def blockOnStep (prev : Engine) (s : ExecState) (f : Fut) : Res (ExecState × Nat) :=
  let L := s.nextLoop
  let s1 := { s with nextLoop := L + 1, loops := s.loops ++ [(L, false)] }
  let p := spawnTask s1 f (some L)
  match prev.runLoopF L constForward p.2 with
  | .ok s2 =>
    match lookupA s2.tasks p.1 with
    | some tr =>
      match tr.done with
      | some v => .ok (s2, v)
      | none => .panicked
    | none => .panicked
  | .panicked => .panicked
  | .blocked => .blocked
  | .outOfFuel => .outOfFuel

/-- The fuel-indexed executor: level 0 always reports outOfFuel, level n+1
runs each operation's body with level-n recursive calls. -/
def engine : Nat → Engine
  | 0 =>
    { pollFutF := fun _ _ => .outOfFuel,
      runTaskF := fun _ _ => .outOfFuel,
      dispatchF := fun _ _ => .outOfFuel,
      runLoopF := fun _ _ _ => .outOfFuel,
      blockOnF := fun _ _ => .outOfFuel }
  | n + 1 =>
    { pollFutF := pollFutStep (engine n),
      runTaskF := runTaskStep (engine n),
      dispatchF := dispatchStep (engine n),
      runLoopF := runLoopStep (engine n),
      blockOnF := blockOnStep (engine n) }

/-- Fueled poll of a future. -/
def pollFut (fuel : Nat) (s : ExecState) (f : Fut) : Res (ExecState × POut) :=
  (engine fuel).pollFutF s f

/-- Fueled wake-message consumption for one task. -/
def runTask (fuel : Nat) (s : ExecState) (tid : Nat) : Res ExecState :=
  (engine fuel).runTaskF s tid

/-- Fueled message dispatch. -/
def dispatchMsg (fuel : Nat) (s : ExecState) (m : Msg) : Res ExecState :=
  (engine fuel).dispatchF s m

/-- Fueled MessageLoop::run_loop. -/
def runLoop (fuel : Nat) (L : Nat) (flt : FilterFn) (s : ExecState) : Res ExecState :=
  (engine fuel).runLoopF L flt s

/-- Fueled block_on. -/
def blockOn (fuel : Nat) (s : ExecState) (f : Fut) : Res (ExecState × Nat) :=
  (engine fuel).blockOnF s f

/-- The value block_on returns to its caller (dropping the final state). -/
def blockOnRes (fuel : Nat) (s : ExecState) (f : Fut) : Res Nat :=
  match blockOn fuel s f with
  | .ok (_, v) => .ok v
  | .panicked => .panicked
  | .blocked => .blocked
  | .outOfFuel => .outOfFuel

/-- spawn_local of src/lib.rs: spawn with no loop to quit; returns the task id
(the join handle refers to it) and the new state. -/
def spawnLocal (s : ExecState) (f : Fut) : Nat × ExecState :=
  spawnTask s f none

/-- Drop of JoinHandle in src/lib.rs: ManuallyDrop::take + task.detach().  The
task is only marked detached; its future, queued wake messages and scheduling
are untouched. -/
def dropJoinHandle (s : ExecState) (tid : Nat) : ExecState :=
  match lookupA s.tasks tid with
  | some tr => { s with tasks := setA s.tasks tid { tr with detached := true } }
  | none => s

/-- MessageLoop::run of src/lib.rs: register the WH_MSGFILTER hook (the assert
in MsgFilterHook::register panics if one is already registered on this
thread), run the loop, unregister the hook. -/
def msgLoopRun (fuel : Nat) (s : ExecState) (flt : FilterFn) : Res ExecState :=
  if s.hookRegistered then .panicked
  else
    let L := s.nextLoop
    let s1 :=
      { s with
        nextLoop := L + 1,
        loops := s.loops ++ [(L, false)],
        hookRegistered := true }
    match runLoop fuel L flt s1 with
    | .ok s2 => .ok { s2 with hookRegistered := false }
    | .panicked => .panicked
    | .blocked => .blocked
    | .outOfFuel => .outOfFuel

/-- No task id at or above the fresh counter is in the store. -/
def TasksBelow (s : ExecState) : Prop :=
  ∀ id, s.nextId ≤ id → lookupA s.tasks id = none

/-- No loop id at or above the fresh counter has a quit Cell. -/
def LoopsBelow (s : ExecState) : Prop :=
  ∀ L, s.nextLoop ≤ L → lookupA s.loops L = none

/-- A quiescent thread: empty queue, no WM_QUIT pending, well-formed
counters.  This is the situation both at a fresh thread and at the point
where a running poll synchronously re-enters block_on. -/
def Quiet (s : ExecState) : Prop :=
  s.queue = [] ∧ s.quitPosted = false ∧ TasksBelow s ∧ LoopsBelow s

/-- A run only allocates fresh ids and leaves every pre-existing task and
loop Cell unchanged. -/
def Frame (s s' : ExecState) : Prop :=
  s.nextId ≤ s'.nextId ∧ s.nextLoop ≤ s'.nextLoop ∧
  (∀ id, id < s.nextId → lookupA s'.tasks id = lookupA s.tasks id) ∧
  (∀ L, L < s.nextLoop → lookupA s'.loops L = lookupA s.loops L)

/-- Like Frame but allowing changes to one designated task and one
designated loop Cell (the ones a run of the loop is driving). -/
def FrameX (tid L : Nat) (s s' : ExecState) : Prop :=
  s.nextId ≤ s'.nextId ∧ s.nextLoop ≤ s'.nextLoop ∧
  (∀ id, id < s.nextId → id ≠ tid → lookupA s'.tasks id = lookupA s.tasks id) ∧
  (∀ L', L' < s.nextLoop → L' ≠ L → lookupA s'.loops L' = lookupA s.loops L')

/-- Behaviour of one poll of a future, stated the way the spec describes it. -/
def PollOk (f : Fut) : Prop :=
  ∀ s : ExecState, Quiet s →
    ∃ n : Nat,
      (∃ s', Quiet s' ∧ Frame s s' ∧
        ∀ fuel, n ≤ fuel → pollFut fuel s f = .ok (s', .readyP (denote f)))
      ∨ (∃ s' rest, Quiet s' ∧ Frame s s' ∧ Completing rest ∧ denote rest = denote f ∧
          mu rest < mu f ∧
          ∀ fuel, n ≤ fuel → pollFut fuel s f = .ok (s', .pendWake rest))

/-- Behaviour of run_loop when driving the wrapped task of a block_on: the
task is driven to completion, its output stored (unless detached), and the
loop's quit Cell set. -/
def LoopOk (f : Fut) : Prop :=
  ∀ (s : ExecState) (tid L : Nat) (d : Bool) (dn : Option Nat),
    s.queue = [mkWake tid] → s.quitPosted = false → TasksBelow s → LoopsBelow s →
    lookupA s.tasks tid = some ⟨some f, dn, d, some L⟩ →
    tid < s.nextId → L < s.nextLoop → lookupA s.loops L = some false →
    ∃ (n : Nat) (s' : ExecState),
      Quiet s' ∧ FrameX tid L s s' ∧
      lookupA s'.tasks tid = some ⟨none, if d then none else some (denote f), d, some L⟩ ∧
      lookupA s'.loops L = some true ∧
      ∀ fuel, n ≤ fuel → runLoop fuel L constForward s = .ok s'

/-- Behaviour of block_on on a completing future: it returns the future's
value; pre-existing tasks and loops are untouched. -/
def BlockOk (f : Fut) : Prop :=
  ∀ s : ExecState, Quiet s →
    ∃ (n : Nat) (s' : ExecState), Quiet s' ∧ Frame s s' ∧
      ∀ fuel, n ≤ fuel → blockOn fuel s f = .ok (s', denote f)

end Winmsg

namespace WindowBackend

/-!
Embedding of src/backend/window.rs: the hand-rolled task object with one
message-only window per task.  TaskState mirrors the Rust enum (Invalid,
Running(future, join waker), Finished(output)); task_poll is the
Future::poll impl for Task<T> (the join handle side); wake_dispatch is the
MSG_ID_WAKE arm of the wndproc closure created in spawn.
-/

/-- A Waker as far as the backend observes it: an identity (what will_wake
compares, i.e. the data/vtable pair) and a serial distinguishing clones with
the same identity. -/
structure WakerW where
  target : Nat
  serial : Nat
  deriving DecidableEq

/-- Waker::will_wake: do the two wakers wake the same task. -/
def will_wake (a b : WakerW) : Bool := a.target == b.target

/-- Waker::clone_from of the Rust standard library: keep self when
self.will_wake(source), otherwise replace by source.clone(). -/
def clone_from (old source : WakerW) : WakerW :=
  if will_wake old source then old else source

/-- First-order futures for this backend: ready now, or pending for one more
poll. -/
inductive FutW where
  | readyF (v : Nat)
  | pendF (rest : FutW)
  deriving DecidableEq

/-- Result of polling a FutW once. -/
inductive PollW where
  | readyW (v : Nat)
  | pendW (rest : FutW)
  deriving DecidableEq

/-- One poll of a deep-embedded backend future. -/
def pollFutW : FutW → PollW
  | .readyF v => .readyW v
  | .pendF rest => .pendW rest

/-- The TaskState enum of src/backend/window.rs (T instantiated at Nat). -/
inductive TaskState where
  | invalid
  | running (fut : FutW) (joinWaker : Option WakerW)
  | finished (v : Nat)
  deriving DecidableEq

/-- Result of polling the join handle. -/
inductive JoinPoll where
  | pendingJ
  | readyJ (v : Nat)
  deriving DecidableEq

/-- Future::poll for Task<T> in src/backend/window.rs: replace the state with
Invalid and match on the old value.  Invalid panics (modelled as none);
Running stores the context waker as join waker (via Waker::clone_from when
one is already stored) and is pending; Finished moves the output out, leaving
the state Invalid, and is ready. -/
def task_poll (st : TaskState) (cx : WakerW) : Option (TaskState × JoinPoll) :=
  match st with
  | .invalid => none
  | .running fut w =>
    let w' :=
      match w with
      | none => cx
      | some ow => clone_from ow cx
    some (.running fut (some w'), .pendingJ)
  | .finished v => some (.invalid, .readyJ v)

/-- The MSG_ID_WAKE arm of the wndproc in spawn (src/backend/window.rs): the
state is replaced with Invalid; only if the old value was Running is the
future polled (on ready the join waker is woken and the state set to
Finished; on pending the state goes back to Running).  Returns the new
state, whether the future was polled, and the join waker woken (if any).
Note the non-Running old value is dropped and the state stays Invalid. -/
def wake_dispatch (st : TaskState) : TaskState × Bool × Option WakerW :=
  match st with
  | .running fut rw =>
    match pollFutW fut with
    | .readyW v => (.finished v, true, rw)
    | .pendW rest => (.running rest rw, true, none)
  | .finished _ => (.invalid, false, none)
  | .invalid => (.invalid, false, none)

end WindowBackend

namespace ATBackend

/-!
Embedding of src/backend/async_task.rs: thread-queue wakes with the reserved
id WM_APP + 13370 and a null target handle.
-/

/-- A Win32 MSG as the backend dispatch looks at it. -/
structure MsgT where
  hwnd : Nat
  message : Nat
  lParam : Nat
  deriving DecidableEq

/-- MSG_ID_WAKE of src/backend/async_task.rs: WM_APP + 13370. -/
def MSG_ID_WAKE : Nat := 32768 + 13370

/-- The dispatch function of src/backend/async_task.rs: consume (and run) the
message as a wake exactly when the target handle is null and the id is the
reserved wake id; report false (not consumed) otherwise. -/
def dispatch (m : MsgT) : Bool :=
  m.hwnd == 0 && m.message == MSG_ID_WAKE

end ATBackend

namespace FilterHook

/-!
Embedding of hook_proc in src/util/msg_filter_hook.rs, plus the outer
driver's re-raise of a stored panic payload.
-/

/-- What the user filter closure does on one message: report the message
handled (hook returns 1), leave it to the next hook (CallNextHookEx), or
panic with a payload. -/
inductive FilterOutcome where
  | handledO
  | forwardO
  | panicsWith (payload : Nat)

/-- Return of the hook procedure: a concrete LRESULT or the result of
CallNextHookEx. -/
inductive HookRet where
  | ret (v : Int)
  | callNext
  deriving DecidableEq

/-- hook_proc of src/util/msg_filter_hook.rs: the filter runs inside
catch_unwind; Ok(true) returns 1, Ok(false) defers to CallNextHookEx, and a
caught panic stores the payload in the PANIC_PAYLOAD thread-local and
returns 0.  Takes and returns the thread-local. -/
def hook_proc (tl : Option Nat) (outcome : FilterOutcome) : HookRet × Option Nat :=
  match outcome with
  | .handledO => (.ret 1, tl)
  | .forwardO => (.callNext, tl)
  | .panicsWith p => (.ret 0, some p)

/-- What the loop driver does at its next safe point. -/
inductive ResumeAction where
  | continueLoop
  | reraise (p : Nat)
  deriving DecidableEq

/-- Modelled from the spec: the consumer of the PANIC_PAYLOAD thread-local is
not under src/ (hook_proc refers to crate::PANIC_PAYLOAD, which no file in
src/ declares); per the spec the outer driver must "re-raise the panic at its
next safe point", i.e. take the stored payload and resume unwinding with it,
or continue the loop when none is stored. -/
def resume_panic : Option Nat → ResumeAction
  | none => .continueLoop
  | some p => .reraise p

end FilterHook

namespace WindowUtil

/-!
Embedding of the two window-wrapper trampolines: wndproc_typed of
src/util/window.rs and the raw wndproc of src/window.rs.  Both are modelled
as functions of the message id returning whether the user closure was
invoked, whether the user-data allocation was freed, and the LRESULT.
-/

/-- WM_CLOSE. -/
def WM_CLOSE : Nat := 16

/-- WM_NCDESTROY, the final message a window receives. -/
def WM_NCDESTROY : Nat := 130

/-- WM_NCCREATE. -/
def WM_NCCREATE : Nat := 129

/-- WM_GETMINMAXINFO, the only message delivered before WM_NCCREATE. -/
def WM_GETMINMAXINFO : Nat := 36

/-- Observable outcome of one trampoline invocation. -/
structure WndOut where
  calledUser : Bool
  freed : Bool
  ret : Int
  deriving DecidableEq

/-- wndproc_typed of src/util/window.rs: the user closure is invoked first,
for every message; then WM_CLOSE returns 0 (the wrapper manages the window
lifetime), WM_NCDESTROY frees the user-data box and returns 0, and any other
message returns the closure's result or defers to DefWindowProcA (modelled
by the defRet parameter). -/
def wndproc_typed (handler : Nat → Option Int) (defRet : Int) (msg : Nat) : WndOut :=
  let r := handler msg
  if msg = WM_CLOSE then ⟨true, false, 0⟩
  else if msg = WM_NCDESTROY then ⟨true, true, 0⟩
  else ⟨true, false, r.getD defRet⟩

/-- The wndproc of src/window.rs: WM_GETMINMAXINFO runs the default handler
before user data exists, WM_NCCREATE installs the user data and returns 1,
WM_NCDESTROY frees the user-data box and returns 0 without calling the user
closure, and every other message runs the closure (default handler on
None). -/
def wndproc_raw (handler : Nat → Option Int) (defRet : Int) (msg : Nat) : WndOut :=
  if msg = WM_GETMINMAXINFO then ⟨false, false, defRet⟩
  else if msg = WM_NCCREATE then ⟨false, false, 1⟩
  else if msg = WM_NCDESTROY then ⟨false, true, 0⟩
  else ⟨true, false, (handler msg).getD defRet⟩

end WindowUtil

namespace Winmsg

theorem lookupA_append {β : Type} (l1 l2 : List (Nat × β)) (id : Nat) :
    lookupA (l1 ++ l2) id =
      match lookupA l1 id with
      | some b => some b
      | none => lookupA l2 id := by
  induction l1 with
  | nil => rfl
  | cons p rest ih =>
    obtain ⟨i, b⟩ := p
    by_cases h : i = id
    · simp [lookupA, h]
    · simp [lookupA, h, ih]

theorem lookupA_append_self {β : Type} {l : List (Nat × β)} {id : Nat}
    (h : lookupA l id = none) (b : β) :
    lookupA (l ++ [(id, b)]) id = some b := by
  rw [lookupA_append, h]
  simp [lookupA]

theorem lookupA_append_ne {β : Type} (l : List (Nat × β)) {i id : Nat} (h : i ≠ id) (b : β) :
    lookupA (l ++ [(i, b)]) id = lookupA l id := by
  rw [lookupA_append]
  cases hl : lookupA l id with
  | none => simp [lookupA, h]
  | some c => rfl

theorem lookupA_setA_ne {β : Type} (l : List (Nat × β)) {id id' : Nat} (h : id' ≠ id) (b : β) :
    lookupA (setA l id b) id' = lookupA l id' := by
  induction l with
  | nil => rfl
  | cons p rest ih =>
    obtain ⟨i, c⟩ := p
    by_cases hi : i = id
    · subst hi
      simp [setA, lookupA, Ne.symm h]
    · simp [setA, lookupA, hi, ih]

theorem lookupA_setA_self {β : Type} {l : List (Nat × β)} {id : Nat} {b0 : β}
    (h : lookupA l id = some b0) (b : β) :
    lookupA (setA l id b) id = some b := by
  induction l with
  | nil => simp [lookupA] at h
  | cons p rest ih =>
    obtain ⟨i, c⟩ := p
    by_cases hi : i = id
    · subst hi
      simp [setA, lookupA]
    · simp [setA, lookupA, hi] at h ⊢
      exact ih h

theorem lookupA_setA_none {β : Type} {l : List (Nat × β)} {id' : Nat}
    (h : lookupA l id' = none) (id : Nat) (b : β) :
    lookupA (setA l id b) id' = none := by
  induction l with
  | nil => rfl
  | cons p rest ih =>
    obtain ⟨i, c⟩ := p
    by_cases hip : i = id'
    · subst hip
      simp [lookupA] at h
    · have hrest : lookupA rest id' = none := by
        simpa [lookupA, hip] using h
      by_cases hi : i = id
      · subst hi
        simp [setA, lookupA, hip, hrest]
      · simp [setA, lookupA, hip, hi, ih hrest]

theorem frame_rfl (s : ExecState) : Frame s s :=
  ⟨le_rfl, le_rfl, fun _ _ => rfl, fun _ _ => rfl⟩

theorem frame_trans {s1 s2 s3 : ExecState} (h1 : Frame s1 s2) (h2 : Frame s2 s3) :
    Frame s1 s3 :=
  ⟨h1.1.trans h2.1, h1.2.1.trans h2.2.1,
   fun id hid => (h2.2.2.1 id (lt_of_lt_of_le hid h1.1)).trans (h1.2.2.1 id hid),
   fun L hL => (h2.2.2.2 L (lt_of_lt_of_le hL h1.2.1)).trans (h1.2.2.2 L hL)⟩

theorem pollFut_ready (n : Nat) (s : ExecState) (v : Nat) :
    pollFut (n + 1) s (.ready v) = .ok (s, .readyP v) := rfl

theorem pollFut_pending (n : Nat) (s : ExecState) :
    pollFut (n + 1) s .pending = .ok (s, .parked) := rfl

theorem pollFut_yield (n : Nat) (s : ExecState) (rest : Fut) :
    pollFut (n + 1) s (.yieldThen rest) = .ok (s, .pendWake rest) := rfl

theorem pollFut_postQuit (n : Nat) (s : ExecState) (rest : Fut) :
    pollFut (n + 1) s (.postQuitThen rest) = pollFut n { s with quitPosted := true } rest := rfl

theorem pollFut_blockOn (n : Nat) (s : ExecState) (inner : Fut) (k : Nat → Fut) :
    pollFut (n + 1) s (.blockOnThen inner k) =
      match blockOn n s inner with
      | .ok (s', v) => pollFut n s' (k v)
      | .panicked => .panicked
      | .blocked => .blocked
      | .outOfFuel => .outOfFuel := rfl

theorem runTask_succ (n : Nat) (s : ExecState) (tid : Nat) :
    runTask (n + 1) s tid = runTaskStep (engine n) s tid := rfl

theorem dispatchMsg_succ (n : Nat) (s : ExecState) (m : Msg) :
    dispatchMsg (n + 1) s m = dispatchStep (engine n) s m := rfl

theorem runLoop_succ (n : Nat) (L : Nat) (flt : FilterFn) (s : ExecState) :
    runLoop (n + 1) L flt s = runLoopStep (engine n) L flt s := rfl

theorem blockOn_succ (n : Nat) (s : ExecState) (f : Fut) :
    blockOn (n + 1) s f = blockOnStep (engine n) s f := rfl

theorem engine_pollFutF (n : Nat) : (engine n).pollFutF = pollFut n := rfl

theorem engine_runTaskF (n : Nat) : (engine n).runTaskF = runTask n := rfl

theorem engine_dispatchF (n : Nat) : (engine n).dispatchF = dispatchMsg n := rfl

theorem engine_runLoopF (n : Nat) : (engine n).runLoopF = runLoop n := rfl

theorem engine_blockOnF (n : Nat) : (engine n).blockOnF = blockOn n := rfl

end Winmsg

namespace Winmsg

theorem runLoop_done (n : Nat) (L : Nat) (flt : FilterFn) (s : ExecState)
    (h : lookupA s.loops L = some true) :
    runLoop (n + 1) L flt s = .ok s := by
  rw [runLoop_succ]
  simp [runLoopStep, getLoop, h]

theorem runLoop_step_wake (n : Nat) (L : Nat) (s : ExecState) (tid : Nat) (rest : List Msg)
    (hflag : lookupA s.loops L = some false) (hqueue : s.queue = mkWake tid :: rest) :
    runLoop (n + 3) L constForward s =
      match runTask (n + 1) { s with queue := rest } tid with
      | .ok s3 => runLoop (n + 2) L constForward s3
      | .panicked => .panicked
      | .blocked => .blocked
      | .outOfFuel => .outOfFuel := by
  have e3 : n + 3 = (n + 2) + 1 := rfl
  rw [e3, runLoop_succ]
  have e2 : n + 2 = (n + 1) + 1 := rfl
  simp only [runLoopStep, getLoop, hflag, hqueue, Option.getD, constForward,
    engine_dispatchF, engine_runLoopF, Bool.false_eq_true, if_false, e2,
    dispatchMsg_succ, dispatchStep, engine_runTaskF, mkWake]
  simp [EXECUTOR_HWND, MSG_ID_WAKE]

theorem runTask_unfold (n : Nat) (s : ExecState) (tid : Nat) (tr : TaskRec) (f : Fut)
    (h : lookupA s.tasks tid = some tr) (hf : tr.fut = some f) :
    runTask (n + 1) s tid =
      match pollFut n s f with
      | .ok (s', .readyP v) =>
        .ok (match tr.quitLoop with
             | some L =>
               { s' with
                 tasks := setA s'.tasks tid
                   { tr with fut := none, done := if tr.detached then none else some v },
                 loops := setA s'.loops L true }
             | none =>
               { s' with
                 tasks := setA s'.tasks tid
                   { tr with fut := none, done := if tr.detached then none else some v } })
      | .ok (s', .pendWake r) =>
        .ok { s' with
              tasks := setA s'.tasks tid { tr with fut := some r },
              queue := s'.queue ++ [mkWake tid] }
      | .ok (s', .parked) =>
        .ok { s' with tasks := setA s'.tasks tid { tr with fut := some .pending } }
      | .panicked => .panicked
      | .blocked => .blocked
      | .outOfFuel => .outOfFuel := by
  rw [runTask_succ]
  simp only [runTaskStep, h, hf, engine_pollFutF]

theorem blockOn_unfold (n : Nat) (s : ExecState) (f : Fut) :
    blockOn (n + 1) s f =
      match runLoop n s.nextLoop constForward
          { s with
            nextLoop := s.nextLoop + 1,
            loops := s.loops ++ [(s.nextLoop, false)],
            nextId := s.nextId + 1,
            tasks := s.tasks ++ [(s.nextId, ⟨some f, none, false, some s.nextLoop⟩)],
            queue := s.queue ++ [mkWake s.nextId] } with
      | .ok s2 =>
        match lookupA s2.tasks s.nextId with
        | some tr =>
          match tr.done with
          | some v => .ok (s2, v)
          | none => .panicked
        | none => .panicked
      | .panicked => .panicked
      | .blocked => .blocked
      | .outOfFuel => .outOfFuel := by
  rw [blockOn_succ]
  simp only [blockOnStep, spawnTask, engine_runLoopF]

end Winmsg

namespace Winmsg

theorem master :
    ∀ (N : Nat) (f : Fut), mu f ≤ N → Completing f → PollOk f ∧ LoopOk f ∧ BlockOk f := by
  intro N
  induction N using Nat.strong_induction_on with
  | _ N IH =>
  intro f hmu hc
  have hPoll : PollOk f := by
    cases hc with
    | ready v =>
      intro s hq
      refine ⟨1, Or.inl ⟨s, hq, frame_rfl s, ?_⟩⟩
      intro fuel hfuel
      obtain ⟨m, rfl⟩ : ∃ m, fuel = m + 1 := ⟨fuel - 1, by omega⟩
      exact pollFut_ready m s v
    | yieldThen hrest =>
      rename_i rest
      intro s hq
      refine ⟨1, Or.inr ⟨s, rest, hq, frame_rfl s, hrest, rfl, ?_, ?_⟩⟩
      · show mu rest < mu (.yieldThen rest)
        simp [mu]
      · intro fuel hfuel
        obtain ⟨m, rfl⟩ : ∃ m, fuel = m + 1 := ⟨fuel - 1, by omega⟩
        exact pollFut_yield m s rest
    | blockOnThen hin hk =>
      rename_i inner k
      intro s hq
      have hmueq : mu (Fut.blockOnThen inner k) = mu inner + mu (k (denote inner)) + 1 := rfl
      have hmu1 : mu inner < N := by omega
      have hB : BlockOk inner := (IH (mu inner) hmu1 inner le_rfl hin).2.2
      obtain ⟨n1, s1, hq1, hfr1, hrun1⟩ := hB s hq
      have hmu2 : mu (k (denote inner)) < N := by omega
      have hP : PollOk (k (denote inner)) := (IH (mu (k (denote inner))) hmu2 _ le_rfl (hk _)).1
      obtain ⟨n2, hcase⟩ := hP s1 hq1
      rcases hcase with ⟨s2, hq2, hfr2, heval⟩ |
        ⟨s2, rest, hq2, hfr2, hcrest, hdrest, hmurest, heval⟩
      · refine ⟨n1 + n2 + 1, Or.inl ⟨s2, hq2, frame_trans hfr1 hfr2, ?_⟩⟩
        intro fuel hfuel
        obtain ⟨m, hm, rfl⟩ : ∃ m, n1 + n2 ≤ m ∧ fuel = m + 1 := ⟨fuel - 1, by omega, by omega⟩
        rw [pollFut_blockOn, hrun1 m (by omega)]
        exact heval m (by omega)
      · refine ⟨n1 + n2 + 1, Or.inr ⟨s2, rest, hq2, frame_trans hfr1 hfr2, hcrest, ?_, ?_, ?_⟩⟩
        · exact hdrest
        · have : mu rest < mu (k (denote inner)) := hmurest
          omega
        · intro fuel hfuel
          obtain ⟨m, hm, rfl⟩ : ∃ m, n1 + n2 ≤ m ∧ fuel = m + 1 := ⟨fuel - 1, by omega, by omega⟩
          rw [pollFut_blockOn, hrun1 m (by omega)]
          exact heval m (by omega)
  have hLoop : LoopOk f := by
    intro s tid L d dn hqueue hqp hTB hLB hlook htid hL hloopL
    have hq1 : Quiet { s with queue := ([] : List Msg) } := ⟨rfl, hqp, hTB, hLB⟩
    obtain ⟨n1, hcase⟩ := hPoll { s with queue := [] } hq1
    rcases hcase with ⟨s2, hq2, hfr2, heval⟩ |
      ⟨s2, rest, hq2, hfr2, hcrest, hdrest, hmurest, heval⟩
    · have hlook2 : lookupA s2.tasks tid = some ⟨some f, dn, d, some L⟩ := by
        rw [hfr2.2.2.1 tid htid]
        exact hlook
      have hloop2 : lookupA s2.loops L = some false := by
        rw [hfr2.2.2.2 L hL]
        exact hloopL
      refine ⟨n1 + 3,
        { s2 with
          tasks := setA s2.tasks tid ⟨none, if d then none else some (denote f), d, some L⟩,
          loops := setA s2.loops L true }, ?_, ?_, ?_, ?_, ?_⟩
      · exact ⟨hq2.1, hq2.2.1,
          fun id hid => lookupA_setA_none (hq2.2.2.1 id hid) tid _,
          fun L' hL' => lookupA_setA_none (hq2.2.2.2 L' hL') L true⟩
      · refine ⟨hfr2.1, hfr2.2.1, ?_, ?_⟩
        · intro id hid hne
          rw [lookupA_setA_ne _ hne, hfr2.2.2.1 id hid]
        · intro L' hL' hne
          rw [lookupA_setA_ne _ hne, hfr2.2.2.2 L' hL']
      · exact lookupA_setA_self hlook2 _
      · exact lookupA_setA_self hloop2 _
      · intro fuel hfuel
        obtain ⟨m, hm, rfl⟩ : ∃ m, n1 ≤ m ∧ fuel = m + 3 := ⟨fuel - 3, by omega, by omega⟩
        rw [runLoop_step_wake m L s tid [] hloopL hqueue,
          runTask_unfold m { s with queue := ([] : List Msg) } tid _ f
            (show lookupA ({ s with queue := ([] : List Msg) }).tasks tid =
              some ⟨some f, dn, d, some L⟩ from hlook) rfl,
          heval m hm]
        exact runLoop_done (m + 1) L constForward _ (lookupA_setA_self hloop2 true)
    · have hlook2 : lookupA s2.tasks tid = some ⟨some f, dn, d, some L⟩ := by
        rw [hfr2.2.2.1 tid htid]
        exact hlook
      have hloop2 : lookupA s2.loops L = some false := by
        rw [hfr2.2.2.2 L hL]
        exact hloopL
      have hLrest : LoopOk rest := (IH (mu rest) (by omega) rest le_rfl hcrest).2.1
      obtain ⟨n2, s3, hq3, hfrX3, htask3, hloop3, hrun3⟩ :=
        hLrest
          { s2 with
            tasks := setA s2.tasks tid ⟨some rest, dn, d, some L⟩,
            queue := [mkWake tid] }
          tid L d dn rfl hq2.2.1
          (fun id hid => lookupA_setA_none (hq2.2.2.1 id hid) tid _)
          hq2.2.2.2
          (lookupA_setA_self hlook2 _)
          (lt_of_lt_of_le htid hfr2.1)
          (lt_of_lt_of_le hL hfr2.2.1)
          hloop2
      refine ⟨n1 + n2 + 3, s3, hq3, ?_, ?_, hloop3, ?_⟩
      · refine ⟨le_trans hfr2.1 hfrX3.1, le_trans hfr2.2.1 hfrX3.2.1, ?_, ?_⟩
        · intro id hid hne
          rw [hfrX3.2.2.1 id (lt_of_lt_of_le hid hfr2.1) hne,
            lookupA_setA_ne _ hne, hfr2.2.2.1 id hid]
        · intro L' hL' hne
          rw [hfrX3.2.2.2 L' (lt_of_lt_of_le hL' hfr2.2.1) hne, hfr2.2.2.2 L' hL']
      · rw [hdrest] at htask3
        exact htask3
      · intro fuel hfuel
        obtain ⟨m, hm, rfl⟩ : ∃ m, n1 + n2 ≤ m ∧ fuel = m + 3 := ⟨fuel - 3, by omega, by omega⟩
        rw [runLoop_step_wake m L s tid [] hloopL hqueue,
          runTask_unfold m { s with queue := ([] : List Msg) } tid _ f
            (show lookupA ({ s with queue := ([] : List Msg) }).tasks tid =
              some ⟨some f, dn, d, some L⟩ from hlook) rfl,
          heval m (by omega)]
        simp only [hq2.1, List.nil_append]
        exact hrun3 (m + 2) (by omega)
  have hBlock : BlockOk f := by
    intro s hq
    obtain ⟨hqueue0, hqp0, hTB0, hLB0⟩ := hq
    have hTB2 : TasksBelow
        { s with
          nextLoop := s.nextLoop + 1,
          loops := s.loops ++ [(s.nextLoop, false)],
          nextId := s.nextId + 1,
          tasks := s.tasks ++ [(s.nextId, ⟨some f, none, false, some s.nextLoop⟩)],
          queue := [mkWake s.nextId] } := by
      intro id hid
      have hid' : s.nextId + 1 ≤ id := hid
      rw [lookupA_append_ne _ (show s.nextId ≠ id by omega) _]
      exact hTB0 id (by omega)
    have hLB2 : LoopsBelow
        { s with
          nextLoop := s.nextLoop + 1,
          loops := s.loops ++ [(s.nextLoop, false)],
          nextId := s.nextId + 1,
          tasks := s.tasks ++ [(s.nextId, ⟨some f, none, false, some s.nextLoop⟩)],
          queue := [mkWake s.nextId] } := by
      intro L' hL'
      have hL'' : s.nextLoop + 1 ≤ L' := hL'
      rw [lookupA_append_ne _ (show s.nextLoop ≠ L' by omega) _]
      exact hLB0 L' (by omega)
    obtain ⟨n2, s3, hq3, hfrX, htask3, hloop3, hrun3⟩ :=
      hLoop
        { s with
          nextLoop := s.nextLoop + 1,
          loops := s.loops ++ [(s.nextLoop, false)],
          nextId := s.nextId + 1,
          tasks := s.tasks ++ [(s.nextId, ⟨some f, none, false, some s.nextLoop⟩)],
          queue := [mkWake s.nextId] }
        s.nextId s.nextLoop false none rfl hqp0 hTB2 hLB2
        (lookupA_append_self (hTB0 s.nextId le_rfl) _)
        (Nat.lt_succ_self _)
        (Nat.lt_succ_self _)
        (lookupA_append_self (hLB0 s.nextLoop le_rfl) _)
    refine ⟨n2 + 1, s3, hq3, ?_, ?_⟩
    · have ha : s.nextId + 1 ≤ s3.nextId := hfrX.1
      have hb : s.nextLoop + 1 ≤ s3.nextLoop := hfrX.2.1
      refine ⟨by omega, by omega, ?_, ?_⟩
      · intro id hid
        rw [hfrX.2.2.1 id (show id < s.nextId + 1 by omega) (show id ≠ s.nextId by omega),
          lookupA_append_ne _ (show s.nextId ≠ id by omega) _]
      · intro L' hL'
        rw [hfrX.2.2.2 L' (show L' < s.nextLoop + 1 by omega) (show L' ≠ s.nextLoop by omega),
          lookupA_append_ne _ (show s.nextLoop ≠ L' by omega) _]
    · intro fuel hfuel
      obtain ⟨m, hm, rfl⟩ : ∃ m, n2 ≤ m ∧ fuel = m + 1 := ⟨fuel - 1, by omega, by omega⟩
      rw [blockOn_unfold m s f, hqueue0]
      simp only [List.nil_append]
      rw [hrun3 m hm]
      simp [htask3]
  exact ⟨hPoll, hLoop, hBlock⟩

end Winmsg

namespace Winmsg

theorem quiet_initState : Quiet initState :=
  ⟨rfl, rfl, fun _ _ => rfl, fun _ _ => rfl⟩

/-- C1: block_on of src/lib.rs returns the output of its future whenever the
future completes before any quit is delivered; but when the message loop
exits via a quit request (PostQuitMessage) before the future completes,
block_on panics with "received unexpected quit message" (the expect in
block_on over the Err of poll_ready) instead of returning a recoverable
error variant; the future is discarded during the unwind. -/
theorem c1_theorem :
    (∀ f, Completing f →
      ∃ n, ∀ fuel, n ≤ fuel → blockOnRes fuel initState f = .ok (denote f))
    ∧ blockOnRes 40 initState (.postQuitThen .pending) = .panicked := by
  constructor
  · intro f hc
    obtain ⟨n, s', hq', hfr, hrun⟩ := (master (mu f) f le_rfl hc).2.2 initState quiet_initState
    refine ⟨n, fun fuel hf => ?_⟩
    simp [blockOnRes, hrun fuel hf]
  · decide

/-- C1 counterexample: at the concrete future that calls PostQuitMessage and
then parks, block_on panics; it does not return a recoverable quit-requested
error variant (its model result is the panic outcome, not an ok value). -/
theorem c1_counterexample :
    blockOnRes 40 initState (.postQuitThen .pending) = .panicked
    ∧ ∀ v, blockOnRes 40 initState (.postQuitThen .pending) ≠ .ok v := by
  refine ⟨by decide, fun v h => ?_⟩
  rw [show blockOnRes 40 initState (.postQuitThen .pending) = .panicked from by decide] at h
  exact Res.noConfusion h

/-- C1 witness: a completing future, run through block_on. -/
theorem c1_witness :
    ∃ n, ∀ fuel, n ≤ fuel →
      blockOnRes fuel initState (.yieldThen (.ready 42)) = .ok 42 :=
  c1_theorem.1 (.yieldThen (.ready 42)) (Completing.yieldThen (Completing.ready 42))

/-- C2 (amended): only MessageLoop::run panics on nesting, via the assert in
MsgFilterHook::register that fires when a WH_MSGFILTER hook is already
registered on the thread, before the nested loop starts; block_on registers
no hook and nests freely (a nested block_on completes and returns its
value). -/
theorem c2_theorem :
    (∀ (fuel : Nat) (s : ExecState) (flt : FilterFn),
      s.hookRegistered = true → msgLoopRun fuel s flt = .panicked)
    ∧ blockOnRes 40 initState (.blockOnThen (.ready 7) (fun v => .ready (v + 35))) = .ok 42 := by
  constructor
  · intro fuel s flt h
    simp [msgLoopRun, h]
  · decide

/-- C2 counterexample: a block_on nested inside another block_on does not
panic; it completes and returns the inner value plus two. -/
theorem c2_counterexample :
    blockOnRes 40 initState (.blockOnThen (.ready 3) (fun v => .ready (v + 2))) = .ok 5 := by
  decide

/-- C2 witness: MessageLoop::run invoked while a hook is registered. -/
theorem c2_witness :
    msgLoopRun 5 { initState with hookRegistered := true } constForward = .panicked :=
  c2_theorem.1 5 { initState with hookRegistered := true } constForward rfl

/-- C3: a nested block_on evaluates the inner future to completion and hands
the value to the enclosing future: block_on of (block_on (ready 7)) + 1
returns 8. -/
theorem c3_theorem :
    blockOnRes 40 initState (.blockOnThen (.ready 7) (fun v => .ready (v + 1))) = .ok 8 := by
  decide

end Winmsg

namespace Winmsg

/-- C6: dropping a JoinHandle (src/lib.rs Drop impl: ManuallyDrop::take +
task.detach()) detaches without aborting: the queue and every other task are
untouched and the task keeps its future, only its detached flag is set; when
a detached task later completes, its future is gone and its output is
discarded (done stays none); and end to end, a task spawned with spawn_local
whose handle is dropped immediately is still driven to completion by the
next block_on, with its output discarded. -/
theorem c6_theorem :
    (∀ (s : ExecState) (tid : Nat) (tr : TaskRec),
      lookupA s.tasks tid = some tr →
      (dropJoinHandle s tid).queue = s.queue
      ∧ lookupA (dropJoinHandle s tid).tasks tid = some { tr with detached := true }
      ∧ ∀ id, id ≠ tid → lookupA (dropJoinHandle s tid).tasks id = lookupA s.tasks id)
    ∧ (∀ (n : Nat) (s : ExecState) (tid : Nat) (tr : TaskRec) (v : Nat),
      lookupA s.tasks tid = some tr → tr.detached = true → tr.fut = some (.ready v) →
      tr.quitLoop = none →
      runTask (n + 2) s tid =
        .ok { s with tasks := setA s.tasks tid { tr with fut := none, done := none } })
    ∧ blockOnRes 40
        (dropJoinHandle (spawnLocal initState (.yieldThen (.ready 5))).2
          (spawnLocal initState (.yieldThen (.ready 5))).1)
        (.yieldThen (.yieldThen (.ready 0))) = .ok 0
    ∧ (match blockOn 40
          (dropJoinHandle (spawnLocal initState (.yieldThen (.ready 5))).2
            (spawnLocal initState (.yieldThen (.ready 5))).1)
          (.yieldThen (.yieldThen (.ready 0))) with
        | .ok (sf, _) =>
          (lookupA sf.tasks 0).map (fun tr => (tr.fut.isNone, tr.done, tr.detached))
        | _ => none) = some (true, none, true) := by
  refine ⟨?_, ?_, by decide, by decide⟩
  · intro s tid tr h
    refine ⟨?_, ?_, ?_⟩
    · simp [dropJoinHandle, h]
    · simp only [dropJoinHandle, h]
      exact lookupA_setA_self h _
    · intro id hne
      simp only [dropJoinHandle, h]
      exact lookupA_setA_ne _ hne _
  · intro n s tid tr v h hd hf hql
    show runTask ((n + 1) + 1) s tid = _
    rw [runTask_unfold (n + 1) s tid tr (.ready v) h hf, pollFut_ready n s v]
    simp [hd, hql]

/-- C6 witness: the detach conjuncts applied at concrete tasks. -/
theorem c6_witness :
    ((dropJoinHandle (spawnLocal initState (.ready 9)).2 0).queue
        = (spawnLocal initState (.ready 9)).2.queue
      ∧ lookupA (dropJoinHandle (spawnLocal initState (.ready 9)).2 0).tasks 0
        = some ⟨some (.ready 9), none, true, none⟩
      ∧ ∀ id, id ≠ 0 →
          lookupA (dropJoinHandle (spawnLocal initState (.ready 9)).2 0).tasks id
            = lookupA (spawnLocal initState (.ready 9)).2.tasks id)
    ∧ runTask 2
        { initState with
          tasks := [(0, (⟨some (.ready 7), none, true, none⟩ : TaskRec))], nextId := 1 } 0
      = .ok { initState with
              tasks := setA [(0, (⟨some (.ready 7), none, true, none⟩ : TaskRec))] 0
                ⟨none, none, true, none⟩,
              nextId := 1 } :=
  ⟨c6_theorem.1 (spawnLocal initState (.ready 9)).2 0 ⟨some (.ready 9), none, false, none⟩ rfl,
   c6_theorem.2.1 0
     { initState with
       tasks := [(0, (⟨some (.ready 7), none, true, none⟩ : TaskRec))], nextId := 1 } 0
     ⟨some (.ready 7), none, true, none⟩ 7 rfl rfl rfl rfl⟩

/-- C8: a message bearing the reserved wake id but a non-null target handle
is not consumed as a wake.  In the thread-queue backend
(src/backend/async_task.rs) dispatch reports it not handled, while a
null-target message with the wake id is consumed; in the executor-window
driver (src/lib.rs) a message whose target is not the executor window is
handed unchanged to the default dispatcher (the forwarded log) and no task
is polled. -/
theorem c8_theorem :
    (∀ h l : Nat, h ≠ 0 →
      ATBackend.dispatch ⟨h, ATBackend.MSG_ID_WAKE, l⟩ = false)
    ∧ (∀ l : Nat, ATBackend.dispatch ⟨0, ATBackend.MSG_ID_WAKE, l⟩ = true)
    ∧ (∀ (fuel : Nat) (s : ExecState) (m : Msg), m.hwnd ≠ EXECUTOR_HWND →
      dispatchMsg (fuel + 1) s m = .ok { s with forwarded := s.forwarded ++ [m] }) := by
  refine ⟨?_, fun l => rfl, ?_⟩
  · intro h l hne
    simp [ATBackend.dispatch, hne]
  · intro fuel s m hne
    rw [dispatchMsg_succ]
    simp [dispatchStep, hne]

/-- C8 witness: a wake-id message aimed at window handle 7. -/
theorem c8_witness :
    ATBackend.dispatch ⟨7, ATBackend.MSG_ID_WAKE, 3⟩ = false
    ∧ dispatchMsg 1 initState ⟨7, MSG_ID_WAKE, 3⟩
      = .ok { initState with forwarded := initState.forwarded ++ [⟨7, MSG_ID_WAKE, 3⟩] } :=
  ⟨c8_theorem.1 7 3 (by decide), c8_theorem.2.2 0 initState ⟨7, MSG_ID_WAKE, 3⟩ (by decide)⟩

/-- C10: run_loop of src/lib.rs checks the quit Cell before each blocking
dequeue: with the Cell already set it returns at once, dequeuing nothing and
leaving the queue intact; when the filter sets quit and drops the current
message, exactly that message is consumed and the rest of the queue is left
un-dequeued; and when a task polled during the dispatch of the current
message sets quit, the loop returns right after that dispatch. -/
theorem c10_theorem :
    (∀ (fuel L : Nat) (flt : FilterFn) (s : ExecState),
      getLoop s L = true → runLoop (fuel + 1) L flt s = .ok s)
    ∧ (∀ (fuel L : Nat) (flt : FilterFn) (s : ExecState) (m : Msg) (rest : List Msg),
      lookupA s.loops L = some false → s.queue = m :: rest → flt m = (.drop, true) →
      runLoop (fuel + 2) L flt s = .ok { s with queue := rest, loops := setA s.loops L true })
    ∧ (∀ (fuel L : Nat) (flt : FilterFn) (s : ExecState) (m : Msg) (rest : List Msg)
        (s3 : ExecState),
      lookupA s.loops L = some false → s.queue = m :: rest → flt m = (.forward, false) →
      dispatchMsg (fuel + 1) { s with queue := rest } m = .ok s3 → getLoop s3 L = true →
      runLoop (fuel + 2) L flt s = .ok s3) := by
  refine ⟨?_, ?_, ?_⟩
  · intro fuel L flt s h
    rw [runLoop_succ]
    simp [runLoopStep, h]
  · intro fuel L flt s m rest hflag hqueue hflt
    show runLoop ((fuel + 1) + 1) L flt s = _
    rw [runLoop_succ]
    simp only [runLoopStep, getLoop, hflag, Option.getD, hqueue, hflt, engine_runLoopF,
      Bool.false_eq_true, if_false]
    exact runLoop_done fuel L flt _ (lookupA_setA_self hflag true)
  · intro fuel L flt s m rest s3 hflag hqueue hflt hdisp hflag3
    have hsome3 : lookupA s3.loops L = some true := by
      cases h3 : lookupA s3.loops L with
      | none => simp [getLoop, h3] at hflag3
      | some b => simp [getLoop, h3] at hflag3; rw [hflag3]
    show runLoop ((fuel + 1) + 1) L flt s = _
    rw [runLoop_succ]
    simp only [runLoopStep, getLoop, hflag, Option.getD, hqueue, hflt, engine_runLoopF,
      engine_dispatchF, Bool.false_eq_true, if_false]
    rw [hdisp]
    exact runLoop_done fuel L flt s3 hsome3

end Winmsg

namespace Winmsg

/-- C10 witness: the three stop-after-quit behaviours at concrete states: a
loop whose Cell is already set, a filter that quits and drops, and a task
poll that sets the Cell. -/
theorem c10_witness :
    runLoop 1 0 constForward { initState with loops := [(0, true)] }
      = .ok { initState with loops := [(0, true)] }
    ∧ runLoop 2 0 (fun _ => (.drop, true))
        { initState with queue := [⟨5, 3, 0⟩], loops := [(0, false)] }
      = .ok { initState with
              queue := [],
              loops := setA [(0, false)] 0 true }
    ∧ runLoop 4 0 constForward
        { initState with
          queue := [mkWake 0],
          tasks := [(0, (⟨some (.ready 1), none, false, some 0⟩ : TaskRec))],
          nextId := 1, loops := [(0, false)], nextLoop := 1 }
      = .ok { initState with
              queue := [],
              tasks := [(0, (⟨none, some 1, false, some 0⟩ : TaskRec))],
              nextId := 1, loops := [(0, true)], nextLoop := 1 } :=
  ⟨c10_theorem.1 0 0 constForward { initState with loops := [(0, true)] } rfl,
   c10_theorem.2.1 0 0 (fun _ => (.drop, true))
     { initState with queue := [⟨5, 3, 0⟩], loops := [(0, false)] } ⟨5, 3, 0⟩ [] rfl rfl rfl,
   c10_theorem.2.2 2 0 constForward
     { initState with
       queue := [mkWake 0],
       tasks := [(0, (⟨some (.ready 1), none, false, some 0⟩ : TaskRec))],
       nextId := 1, loops := [(0, false)], nextLoop := 1 }
     (mkWake 0) []
     { initState with
       queue := [],
       tasks := [(0, (⟨none, some 1, false, some 0⟩ : TaskRec))],
       nextId := 1, loops := [(0, true)], nextLoop := 1 }
     rfl rfl rfl rfl rfl⟩

end Winmsg

namespace WindowBackend

/-- C4: the join-handle poll of src/backend/window.rs: in the Running state
it stores the context waker as the join waker and returns pending - storing
the context waker itself when none was stored, and otherwise reusing the
previously stored waker exactly when will_wake holds (Waker::clone_from);
in the Finished state it moves the output out, leaves the state Invalid (the
closed state) and returns ready; polling again in the Invalid state is the
panic path (none). -/
theorem c4_theorem :
    (∀ (fut : FutW) (cx : WakerW),
      task_poll (.running fut none) cx = some (.running fut (some cx), .pendingJ))
    ∧ (∀ (fut : FutW) (ow cx : WakerW),
      task_poll (.running fut (some ow)) cx
        = some (.running fut (some (if will_wake ow cx then ow else cx)), .pendingJ))
    ∧ (∀ (v : Nat) (cx : WakerW), task_poll (.finished v) cx = some (.invalid, .readyJ v))
    ∧ (∀ cx : WakerW, task_poll .invalid cx = none) := by
  refine ⟨fun fut cx => rfl, fun fut ow cx => ?_, fun v cx => rfl, fun cx => rfl⟩
  simp [task_poll, clone_from]

/-- C5: evaluating the wake-message arm of the wndproc of
src/backend/window.rs on a task that has already completed: the replace with
Invalid is unconditional, so the Finished state (and the stored output 5) is
destroyed and the state left Invalid, contradicting the no-op the spec
requires; the future is indeed not polled. -/
theorem c5_theorem :
    wake_dispatch (.finished 5) = (.invalid, false, none)
    ∧ TaskState.invalid ≠ TaskState.finished 5 := by
  exact ⟨rfl, by decide⟩

end WindowBackend

namespace FilterHook

/-- C7 counterexample: on a panicking user filter the hook procedure returns
0, not the value 1 that the hook protocol (and the Ok(true) arm) uses for a
handled message, so the hook does not report "handled" to the invoking
loop. -/
theorem c7_counterexample :
    hook_proc none (.panicsWith 5) = (.ret 0, some 5)
    ∧ HookRet.ret 0 ≠ HookRet.ret 1 := by
  exact ⟨rfl, by decide⟩

/-- C7 (amended): the hook catches the panic of the user filter, stores the
payload in the PANIC_PAYLOAD thread-local and returns 0 (the not-handled
value, letting the message continue as if unprocessed) to the loop that
invoked it - the value 1 is what a handled (dropped) message returns - and
the outer driver re-raises the stored payload at its next safe point
(spec-modelled consumer). -/
theorem c7_theorem :
    ∀ (tl : Option Nat) (p : Nat),
      hook_proc tl (.panicsWith p) = (.ret 0, some p)
      ∧ hook_proc tl .handledO = (.ret 1, tl)
      ∧ resume_panic (some p) = .reraise p :=
  fun tl p => ⟨rfl, rfl, rfl⟩

end FilterHook

namespace WindowUtil

/-- C9 counterexample: on WM_NCDESTROY the wndproc_typed trampoline of
src/util/window.rs does call back into the user closure (it is invoked
before the free, as the crate's own create_destroy_messages test expects),
contradicting the claim that the trampoline never calls user code on the
final destroy notification. -/
theorem c9_counterexample :
    (wndproc_typed (fun _ => none) 0 WM_NCDESTROY).calledUser = true := rfl

/-- C9 (amended): both trampolines free the heap-allocated user-data block
exactly on WM_NCDESTROY and on no other message; the raw wndproc of
src/window.rs does not call the user closure on that message, but
wndproc_typed of src/util/window.rs invokes the user closure on every
message, WM_NCDESTROY included, before freeing. -/
theorem c9_theorem :
    ∀ (handler : Nat → Option Int) (defRet : Int) (msg : Nat),
      ((wndproc_typed handler defRet msg).freed = true ↔ msg = WM_NCDESTROY)
      ∧ ((wndproc_raw handler defRet msg).freed = true ↔ msg = WM_NCDESTROY)
      ∧ (wndproc_raw handler defRet WM_NCDESTROY).calledUser = false
      ∧ (wndproc_typed handler defRet msg).calledUser = true := by
  intro handler defRet msg
  refine ⟨?_, ?_, rfl, ?_⟩
  · by_cases h1 : msg = WM_CLOSE
    · subst h1
      simp [wndproc_typed, WM_CLOSE, WM_NCDESTROY]
    · by_cases h2 : msg = WM_NCDESTROY
      · subst h2
        simp [wndproc_typed, WM_NCDESTROY, WM_CLOSE]
      · simp [wndproc_typed, h1, h2]
  · by_cases g1 : msg = WM_GETMINMAXINFO
    · subst g1
      simp [wndproc_raw, WM_GETMINMAXINFO, WM_NCDESTROY]
    · by_cases g2 : msg = WM_NCCREATE
      · subst g2
        simp [wndproc_raw, WM_NCCREATE, WM_NCDESTROY, WM_GETMINMAXINFO]
      · by_cases g3 : msg = WM_NCDESTROY
        · subst g3
          simp [wndproc_raw, WM_NCDESTROY, WM_NCCREATE, WM_GETMINMAXINFO]
        · simp [wndproc_raw, g1, g2, g3]
  · by_cases h1 : msg = WM_CLOSE
    · subst h1
      rfl
    · by_cases h2 : msg = WM_NCDESTROY
      · subst h2
        rfl
      · simp [wndproc_typed, h1, h2]

end WindowUtil
